import Mathlib

/-!
Verification of the PLC ladder-diagram simulator (plcsimulator).

The repository contains three evaluation engines:

* `LadderSimulation` (simulation-new.js) — branch-tree based, single pass per
  `executeScan()`; embedded in namespace `LadderSim`.
* `PLCSimulation` (the grid-based engine, `part_000`) — per-column grid
  evaluation wrapped in the 10-iteration feedback stabilizer
  `executeScanCycle()`; embedded in namespace `GridSim`.
* `LadderSimulator` (ladder-simulator.js, `part_003`) — branch based,
  evaluated top-to-bottom by row, with an unpowered coil writing `false`;
  embedded in namespace `Sim3`.

JavaScript objects used as string-keyed dictionaries are modelled as total
functions with default `false` (every read in the source goes through
`x[k] || false`, so an absent key is observationally `false`), except for the
grid engine's `pinStates`, which is modelled as an association list because
`executeScanCycle` iterates over `Object.keys` and compares raw reads
(possibly `undefined`) when detecting output changes.

Scratch keys `branch-${id}-col-${col}` and `${row}-${col}` are modelled
structurally as pairs; the string encodings in the source are injective on
numeric ids/rows/cols, so this is observationally identical.
-/

/-- Pointwise update of a total function: `upd f a b` is the JS assignment
`f[a] = b` for dictionaries modelled as total functions. -/
def upd {α β : Type} [DecidableEq α] (f : α → β) (a : α) (b : β) : α → β :=
  fun x => if x = a then b else f x

/-- `strStartsWith s p` is JavaScript `s.startsWith(p)`, computed on the
underlying character lists (kernel-reducible, unlike `String.startsWith`). -/
def strStartsWith (s p : String) : Bool :=
  p.data.isPrefixOf s.data

/-- Component types: `'NO'`, `'NC'`, `'OUT'`; `UNK` stands for any other
string reaching the `default` case of the `switch` statements. -/
inductive CompType : Type
  | NO : CompType
  | NC : CompType
  | OUT : CompType
  | UNK : CompType
deriving DecidableEq, Repr

/-- A component of a branch: `{ type, address, label, col }` (the `label` is
presentation-only and never read by any engine, so it is omitted). -/
structure Component : Type where
  type : CompType
  address : String
  col : Nat
deriving DecidableEq, Repr

/-- A branch record: `{ id, row, start_col, end_col, parent_branch_id,
connection_col, components }`. -/
structure Branch : Type where
  id : Nat
  row : Nat
  start_col : Nat
  end_col : Nat
  parent_branch_id : Option Nat
  connection_col : Option Nat
  components : List Component
deriving DecidableEq, Repr

/-- A `LadderStructure` (the Ladder Diagram Structure Manager in
simulation.js) as the evaluation engine sees it: the engine reads it only
through `getAllBranches()`, `findBranchById` and `findBranchAtRow`, all of
which depend solely on the concatenation of the rungs' branch lists in rung
order — `branches` is that flattened sequence (`getAllBranches()` returns it
as a fresh array, so the engine's in-place sort never mutates the
structure). -/
structure Ladder : Type where
  branches : List Branch
deriving DecidableEq, Repr

/-- `LadderStructure.findBranchById(id)` (simulation.js): walk the rungs and
return the first branch whose `id` matches, `null` when none does. The first
match while walking rung by rung is the first match in the flattened
sequence, hence `find?` over `branches`. -/
def findBranchById (L : Ladder) (i : Nat) : Option Branch :=
  L.branches.find? (fun b => b.id == i)

/-- `LadderStructure.findBranchAtRow(row)` (simulation.js): walk the rungs
and return the first branch whose `row` matches, `null` when none does —
`find?` over the flattened sequence, as for `findBranchById`. -/
def findBranchAtRow (L : Ladder) (r : Nat) : Option Branch :=
  L.branches.find? (fun b => b.row == r)

namespace LadderSim

/-- State of a `LadderSimulation` instance (simulation-new.js):
`isRunning`, `pinStates`, `branchPowerStates` (keys `branch-${id}-col-${c}`,
modelled as `(id, c)`; `c` is `Option Nat` because a child branch reads the
key built from its `connection_col`, which may be `null`), and
`componentStates` (keys `${row}-${col}`). All reads in the source use
`x[k] || false`, hence total functions with default `false`. -/
structure SimState : Type where
  isRunning : Bool
  pinStates : String → Bool
  branchPowerStates : Nat × Option Nat → Bool
  componentStates : Nat × Nat → Bool

/-- `getPinState(address)`: `this.pinStates[address] || false`. -/
def getPinState (s : SimState) (address : String) : Bool :=
  s.pinStates address

/-- `evaluateComponent(component, powerBefore)`: returns the updated state
(an `OUT` coil writes its pin when powered) together with
`(powerAfter, isActive)`. -/
def evaluateComponent (s : SimState) (c : Component) (powerBefore : Bool) :
    SimState × Bool × Bool :=
  let pinState := getPinState s c.address
  match c.type with
  | .NO => (s, powerBefore && pinState, pinState)
  | .NC => (s, powerBefore && !pinState, !pinState)
  | .OUT =>
      (if powerBefore then
        { s with pinStates := upd s.pinStates c.address true }
      else s, powerBefore, powerBefore)
  | .UNK => (s, powerBefore, false)

/-- The `for (const component of branch.components)` loop of
`evaluateBranch`: record power before the component, evaluate it, record its
active state and the power after it, and continue with `powerAfter`. -/
def evalComponents (b : Branch) : List Component → SimState → Bool → SimState × Bool
  | [], s, hasPower => (s, hasPower)
  | c :: rest, s, hasPower =>
    let s1 : SimState :=
      { s with branchPowerStates := upd s.branchPowerStates (b.id, some c.col) hasPower }
    let r := evaluateComponent s1 c hasPower
    let s2 := r.1
    let powerAfter := r.2.1
    let s3 : SimState :=
      { s2 with componentStates := upd s2.componentStates (b.row, c.col) r.2.2 }
    let s4 : SimState :=
      { s3 with branchPowerStates := upd s3.branchPowerStates (b.id, some (c.col + 1)) powerAfter }
    evalComponents b rest s4 powerAfter

/-- The incoming-power determination at the top of `evaluateBranch`: a main
branch (`parent_branch_id === null`) is always powered from the left rail; a
child branch reads the recorded power of its parent at `connection_col`
(`false` when the parent id does not resolve or the key was never
recorded). -/
def incomingPower (L : Ladder) (s : SimState) (b : Branch) : Bool :=
  match b.parent_branch_id with
  | none => true
  | some pid =>
    match findBranchById L pid with
    | some parentBranch => s.branchPowerStates (parentBranch.id, b.connection_col)
    | none => false

/-- `evaluateBranch(branch, ladderStructure)`. -/
def evaluateBranch (L : Ladder) (s : SimState) (b : Branch) : SimState :=
  let hasPower : Bool := incomingPower L s b
  let s1 : SimState :=
    { s with branchPowerStates := upd s.branchPowerStates (b.id, some b.start_col) hasPower }
  let r := evalComponents b b.components s1 hasPower
  { r.1 with branchPowerStates := upd r.1.branchPowerStates (b.id, some b.end_col) r.2 }

/-- The `branches.sort(...)` comparator of `evaluateLadder`: roots before
non-roots, otherwise `a.row - b.row`. -/
def branchCompare (a b : Branch) : Int :=
  if a.parent_branch_id = none ∧ ¬ b.parent_branch_id = none then -1
  else if ¬ a.parent_branch_id = none ∧ b.parent_branch_id = none then 1
  else (a.row : Int) - (b.row : Int)

/-- The total preorder induced by the comparator (`compare(a,b) <= 0`);
`Array.prototype.sort` sorts into an order consistent with it. -/
def branchLe (a b : Branch) : Prop := branchCompare a b ≤ 0

instance : DecidableRel branchLe := fun a b => by
  unfold branchLe; infer_instance

/-- The sort performed at the top of `evaluateLadder` (a stable sort
consistent with the comparator, as `Array.prototype.sort` is). -/
def sortBranches (l : List Branch) : List Branch :=
  l.insertionSort branchLe

/-- The `for (const branch of branches)` loop of `evaluateLadder`. -/
def evalBranches (L : Ladder) : List Branch → SimState → SimState
  | [], s => s
  | b :: rest, s => evalBranches L rest (evaluateBranch L s b)

/-- The state prepared by `executeScan` before evaluating the ladder: clear
`branchPowerStates` and `componentStates`, then clear every output pin
(every address with prefix `"O:"`; absent keys already read as `false`). -/
def preScan (s : SimState) : SimState :=
  { isRunning := s.isRunning
    pinStates := fun a => if strStartsWith a "O:" then false else s.pinStates a
    branchPowerStates := fun _ => false
    componentStates := fun _ => false }

/-- `executeScan()` (one scan cycle of `LadderSimulation`; the redraw hook is
presentation-only and omitted). -/
def executeScan (L : Ladder) (s : SimState) : SimState :=
  evalBranches L (sortBranches L.branches) (preScan s)

/-- `toggleInput(address)`: flips the pin when the address has an `"I:"` or
`"O:"` prefix, re-scans when running, and returns the pin value read after
the optional scan; otherwise returns `false` and leaves the state alone. -/
def toggleInput (L : Ladder) (s : SimState) (address : String) : Bool × SimState :=
  if strStartsWith address "I:" || strStartsWith address "O:" then
    let s1 : SimState :=
      { s with pinStates := upd s.pinStates address (!s.pinStates address) }
    let s2 := if s1.isRunning then executeScan L s1 else s1
    (s2.pinStates address, s2)
  else (false, s)

/-- `isWireEnergized(row, col)`. -/
def isWireEnergized (L : Ladder) (s : SimState) (row col : Nat) : Bool :=
  match findBranchAtRow L row with
  | none => false
  | some b =>
    if b.start_col ≤ col ∧ col ≤ b.end_col then
      s.branchPowerStates (b.id, some col)
    else false

/-- `isComponentActive(row, col)`. -/
def isComponentActive (s : SimState) (row col : Nat) : Bool :=
  s.componentStates (row, col)

/-- Ghost trace of the coil evaluations performed by `evalComponents`: the
pairs `(address, powerBefore)` of each `OUT` component, in evaluation order,
threading the state exactly as `evalComponents` does. -/
def coilWritesComps (b : Branch) : List Component → SimState → Bool → List (String × Bool)
  | [], _, _ => []
  | c :: rest, s, hasPower =>
    let s1 : SimState :=
      { s with branchPowerStates := upd s.branchPowerStates (b.id, some c.col) hasPower }
    let r := evaluateComponent s1 c hasPower
    let s3 : SimState :=
      { r.1 with componentStates := upd r.1.componentStates (b.row, c.col) r.2.2 }
    let s4 : SimState :=
      { s3 with branchPowerStates := upd s3.branchPowerStates (b.id, some (c.col + 1)) r.2.1 }
    (if c.type = .OUT then [(c.address, hasPower)] else []) ++
      coilWritesComps b rest s4 r.2.1

/-- Ghost trace of the coil evaluations of one branch. -/
def coilWritesBranch (L : Ladder) (s : SimState) (b : Branch) : List (String × Bool) :=
  let hasPower : Bool := incomingPower L s b
  let s1 : SimState :=
    { s with branchPowerStates := upd s.branchPowerStates (b.id, some b.start_col) hasPower }
  coilWritesComps b b.components s1 hasPower

/-- Ghost trace of the coil evaluations of a whole pass. -/
def coilWritesBranches (L : Ladder) : List Branch → SimState → List (String × Bool)
  | [], _ => []
  | b :: rest, s => coilWritesBranch L s b ++ coilWritesBranches L rest (evaluateBranch L s b)

end LadderSim

namespace GridSim

/-- The grid engine's pin table, modelled as an association list because
`executeScanCycle` iterates `Object.keys(this.pinStates)` and compares raw
(possibly `undefined`) reads; insertion order is preserved as in a JS
object. -/
abbrev PinMap := List (String × Bool)

/-- Raw object read `m[a]` (`undefined` is `none`). -/
def lookupPin (m : PinMap) (a : String) : Option Bool :=
  (m.find? (fun kv => kv.1 == a)).map (fun kv => kv.2)

/-- `getPinState(address)`: `this.pinStates[address] || false`. -/
def getPin (m : PinMap) (a : String) : Bool :=
  (lookupPin m a).getD false

/-- JS object assignment `m[a] = v`: overwrite an existing key in place,
otherwise append the new key. -/
def setPin (m : PinMap) (a : String) (v : Bool) : PinMap :=
  if m.any (fun kv => kv.1 == a) then
    m.map (fun kv => if kv.1 == a then (kv.1, v) else kv)
  else m ++ [(a, v)]

/-- The per-iteration output clearing of `executeScanCycle`: every existing
key with prefix `"O:"` is set to `false`. -/
def clearOutputs (m : PinMap) : PinMap :=
  m.map (fun kv => if strStartsWith kv.1 "O:" then (kv.1, false) else kv)

/-- The `previousOutputStates` snapshot taken at the top of each iteration:
the `"O:"`-prefixed entries of the pin table. -/
def savedOutputs (m : PinMap) : PinMap :=
  m.filter (fun kv => strStartsWith kv.1 "O:")

/-- The change detection at the bottom of each iteration: some current
`"O:"`-prefixed key whose value differs from the snapshot (a key absent from
the snapshot reads `undefined` there and so counts as changed). -/
def outputsChanged (cur prev : PinMap) : Bool :=
  cur.any (fun kv =>
    strStartsWith kv.1 "O:" && !(lookupPin cur kv.1 == lookupPin prev kv.1))

/-- Grid cell types placed by the editor (`items.js`). -/
inductive GCellType : Type
  | HLINE : GCellType
  | VLINE : GCellType
  | BOTH : GCellType
  | NO : GCellType
  | NC : GCellType
  | OUT : GCellType
deriving DecidableEq, Repr

/-- A grid cell: `{ type, address }` (labels are presentation-only). -/
structure GCell : Type where
  type : GCellType
  address : String
deriving DecidableEq, Repr

/-- `window.grid` with its dimensions `window.ROWS` / `window.COLS`. -/
structure GridCfg : Type where
  ROWS : Nat
  COLS : Nat
  grid : Nat → Nat → Option GCell

/-- State of a `PLCSimulation` instance: pin table plus the per-scan
`wireStates` and `componentStates` scratch maps (keys `${row}-${col}`). -/
structure ScanSt : Type where
  pins : PinMap
  wires : Nat × Nat → Bool
  comps : Nat × Nat → Bool

/-- `cell && (cell.type === 'VLINE' || cell.type === 'BOTH')`. -/
def isVert : Option GCell → Bool
  | some c => c.type == .VLINE || c.type == .BOTH
  | none => false

/-- The cells that let the energizing loops of `initializeBranchPower`
continue: empty, `HLINE`, `VLINE` or `BOTH`. -/
def isPassive : Option GCell → Bool
  | some c => c.type == .HLINE || c.type == .VLINE || c.type == .BOTH
  | none => true

/-- One energizing sweep of `initializeBranchPower`: walk the given columns
left to right, marking wires energized until the first component. -/
def energizeRun (g : GridCfg) (r : Nat) : List Nat → (Nat × Nat → Bool) → Nat × Nat → Bool
  | [], w => w
  | c :: rest, w =>
    if isPassive (g.grid r c) then energizeRun g r rest (upd w (r, c) true)
    else w

/-- The power-source columns recorded for row `r ≥ 1` by
`initializeBranchPower`: the columns holding a `VLINE`/`BOTH` in row
`r - 1`. -/
def powerCols (g : GridCfg) (r : Nat) : List Nat :=
  (List.range g.COLS).filter (fun c => isVert (g.grid (r - 1) c))

/-- The `startCol` scan of `initializeBranchPower` for a branch row: the
leftmost column holding an `HLINE`, `BOTH`, `NO`, `NC` or `OUT` (`0` when
none exists). -/
def branchStartCol (g : GridCfg) (r : Nat) : Nat :=
  match (List.range g.COLS).find? (fun c =>
      match g.grid r c with
      | some cell =>
        cell.type == .HLINE || cell.type == .BOTH || cell.type == .NO ||
          cell.type == .NC || cell.type == .OUT
      | none => false) with
  | some c => c
  | none => 0

/-- `initializeBranchPower()`: row 0 is energized from the left rail; every
row below a `VLINE`/`BOTH` is energized from its `startCol` (once per
power-source column — the sweep does not depend on which column powered the
row). -/
def initializeBranchPower (g : GridCfg) (s : ScanSt) : ScanSt :=
  let w := energizeRun g 0 (List.range g.COLS) s.wires
  let w := (List.range' 1 (g.ROWS - 1)).foldl (fun w r =>
    (powerCols g r).foldl (fun w _ =>
      energizeRun g r (List.range' (branchStartCol g r) (g.COLS - branchStartCol g r)) w) w) w
  { s with wires := w }

/-- `evaluateCell(grid, row, col)`: whether power passes through the cell,
with the pin write of an `"O:"`-addressed `OUT` coil and the component-state
markings. -/
def evaluateCell (g : GridCfg) (r c : Nat) (s : ScanSt) : Bool × ScanSt :=
  match g.grid r c with
  | none => (if r = 0 then true else false, s)
  | some cell =>
    match cell.type with
    | .HLINE => (true, s)
    | .BOTH => (true, s)
    | .VLINE => (if r = 0 then true else false, s)
    | .NO =>
      let v := getPin s.pins cell.address
      (v, { s with comps := upd s.comps (r, c) v })
    | .NC =>
      let v := getPin s.pins cell.address
      (!v, { s with comps := upd s.comps (r, c) (!v) })
    | .OUT =>
      let s1 :=
        if strStartsWith cell.address "O:" then
          { s with pins := setPin s.pins cell.address true }
        else s
      (true, { s1 with comps := upd s1.comps (r, c) true })

/-- `isConnectedToLeftRail(grid, targetRow, col, rows)`: some column up to
`col` holds an unbroken run of `VLINE`/`BOTH` from a row above down to
`targetRow`. -/
def isConnectedToLeftRail (g : GridCfg) (targetRow col : Nat) : Bool :=
  if targetRow = 0 then true
  else
    (List.range (col + 1)).any (fun checkCol =>
      (List.range targetRow).any (fun r =>
        isVert (g.grid r checkCol) &&
          (List.range' r (targetRow - r)).all (fun checkR => isVert (g.grid checkR checkCol))))

/-- `checkVerticalPower(grid, row, col)`: an energized `VLINE`/`BOTH` at
`(row-1, col-1)`. -/
def checkVerticalPower (g : GridCfg) (r c : Nat) (s : ScanSt) : Bool :=
  if 0 < c ∧ 0 < r then
    isVert (g.grid (r - 1) (c - 1)) && s.wires (r - 1, c - 1)
  else false

/-- `handleParallelPaths(grid, col, rows, columnPower)`: `VLINE`/`BOTH`
cells merge power between adjacent rows (both directions, in row order). -/
def handleParallelPaths (g : GridCfg) (c rows : Nat) (cp : List Bool) : List Bool :=
  (List.range (rows - 1)).foldl (fun cp r =>
    if isVert (g.grid r c) then
      let cp := if cp.getD r false then cp.set (r + 1) true else cp
      if cp.getD (r + 1) false then cp.set r true else cp
    else cp) cp

/-- `evaluateColumn(grid, col, rows)`: per-row power for one column, threading
the pin/component writes of `evaluateCell`, then the parallel-path merge. -/
def evaluateColumn (g : GridCfg) (c : Nat) (s : ScanSt) : List Bool × ScanSt :=
  let r0 := (List.range g.ROWS).foldl (fun (acc : List Bool × ScanSt) r =>
    let hasPower : Bool :=
      if c = 0 then
        if 0 < r then isConnectedToLeftRail g r c else true
      else
        acc.2.wires (r, c - 1) || checkVerticalPower g r c acc.2
    let step : Bool × ScanSt :=
      if hasPower then evaluateCell g r c acc.2 else (hasPower, acc.2)
    (acc.1 ++ [step.1], step.2)) ([], s)
  (handleParallelPaths g c g.ROWS r0.1, r0.2)

/-- `evaluateLadder()` of the grid engine: evaluate the columns left to
right, committing each column's power to `wireStates`. -/
def evaluateLadder (g : GridCfg) (s : ScanSt) : ScanSt :=
  (List.range g.COLS).foldl (fun s c =>
    let r := evaluateColumn g c s
    { r.2 with wires := (List.range g.ROWS).foldl (fun w row =>
        upd w (row, c) (r.1.getD row false)) r.2.wires }) s

/-- One iteration of `executeScanCycle`: clear the scratch maps, clear all
output pins, run `initializeBranchPower` and `evaluateLadder`. -/
def scanIteration (g : GridCfg) (s : ScanSt) : ScanSt :=
  let s1 : ScanSt :=
    { pins := clearOutputs s.pins
      wires := fun _ => false
      comps := fun _ => false }
  evaluateLadder g (initializeBranchPower g s1)

/-- The `while (stateChanged && iterations < MAX_ITERATIONS)` loop of
`executeScanCycle`, with `fuel` the remaining allowed iterations; returns the
final state and the number of iterations executed. -/
def scanLoop (g : GridCfg) : Nat → ScanSt → ScanSt × Nat
  | 0, s => (s, 0)
  | fuel + 1, s =>
    let prev := savedOutputs s.pins
    let s1 := scanIteration g s
    if outputsChanged s1.pins prev then
      let r := scanLoop g fuel s1
      (r.1, r.2 + 1)
    else (s1, 1)

/-- `executeScanCycle()`: iterate to stability or the cap
`MAX_ITERATIONS = 10` (the redraw hook is presentation-only and omitted). -/
def executeScanCycle (g : GridCfg) (s : ScanSt) : ScanSt × Nat :=
  scanLoop g 10 s

end GridSim

namespace Sim3

/-- The data a `LadderSimulator` (ladder-simulator.js) reads from its
`ladderData`: the branch list and the addresses of the declared output pins
(`ladderData.pins.outputs`), which `executeScan` clears. -/
structure Ladder3 : Type where
  branches : List Branch
  outputAddrs : List String

/-- State of a `LadderSimulator`: `pinStates`, `wireStates` and
`componentStates` (keys `${row}-${col}`), all read through `x[k] || false`
and hence modelled as total functions defaulting to `false`. -/
structure St3 : Type where
  pins : String → Bool
  wires : Nat × Nat → Bool
  comps : Nat × Nat → Bool

/-- `evaluateComponent(component, inputPower)` of `LadderSimulator`: with no
incoming power an `OUT` coil writes `false` to its pin; with power, contacts
conduct by pin state and a coil writes `true`. Returns the new pin table and
the component's outgoing power. -/
def evaluateComponent3 (pins : String → Bool) (c : Component) (inputPower : Bool) :
    (String → Bool) × Bool :=
  if !inputPower then
    (if c.type = .OUT then upd pins c.address false else pins, false)
  else
    match c.type with
    | .NO => (pins, pins c.address)
    | .NC => (pins, !pins c.address)
    | .OUT => (upd pins c.address true, true)
    | .UNK => (pins, false)

/-- `evaluatePowerAtColumn(branch, col)`: replay the branch's contacts up to
(excluding) `col` to see whether power reaches that column; breaks as soon
as power is lost. -/
def evaluatePowerAtColumn (pins : String → Bool) (b : Branch) (col : Nat) : Bool :=
  go b.components (b.row == 0)
where
  /-- The component loop with its two early breaks. -/
  go : List Component → Bool → Bool
  | [], hasPower => hasPower
  | c :: rest, hasPower =>
    if col ≤ c.col then hasPower
    else
      let hasPower :=
        match c.type with
        | .NO => hasPower && pins c.address
        | .NC => hasPower && !pins c.address
        | .OUT => hasPower
        | .UNK => hasPower
      if !hasPower then false else go rest hasPower

/-- The component loop of `evaluateBranch`: energize the wires up to the
component while powered, evaluate it, mark it active when conducting (an
`NC` blocking available power is also marked), and continue. -/
def evalComps3 (b : Branch) : List Component → St3 → Bool → Nat → St3 × Bool × Nat
  | [], s, currentPower, currentCol => (s, currentPower, currentCol)
  | c :: rest, s, currentPower, currentCol =>
    let s :=
      if currentPower then
        let w := (List.range' currentCol (c.col - currentCol)).foldl
          (fun w col => upd w (b.row, col) true) s.wires
        { s with wires := w }
      else s
    let r := evaluateComponent3 s.pins c currentPower
    let s : St3 := { s with pins := r.1 }
    let s : St3 :=
      if r.2 then
        { s with comps := upd s.comps (b.row, c.col) true
                 wires := upd s.wires (b.row, c.col) true }
      else if c.type = .NC ∧ currentPower then
        { s with comps := upd s.comps (b.row, c.col) true }
      else s
    evalComps3 b rest s r.2 (c.col + 1)

/-- `evaluateBranch(branch)` of `LadderSimulator`: determine incoming power
(row 0, or the parent's power at `connection_col` recomputed by
`evaluatePowerAtColumn`), return unchanged when unpowered, otherwise sweep
the components and energize the tail wires while power remains. -/
def evaluateBranch3 (L : Ladder3) (s : St3) (b : Branch) : St3 :=
  let hasPower : Bool :=
    if b.row == 0 then true
    else
      match b.connection_col with
      | none => false
      | some cc =>
        match b.parent_branch_id with
        | none => false
        | some pid =>
          match L.branches.find? (fun p => p.id == pid) with
          | some parentBranch => evaluatePowerAtColumn s.pins parentBranch cc
          | none => false
  if !hasPower then s
  else
    let s : St3 := { s with wires := upd s.wires (b.row, b.start_col) true }
    let r := evalComps3 b b.components s true b.start_col
    let s := r.1
    if r.2.1 then
      let w := (List.range' r.2.2 (b.end_col + 1 - r.2.2)).foldl
        (fun w col => upd w (b.row, col) true) s.wires
      { s with wires := w }
    else s

/-- The `branches.sort((a, b) => a.row - b.row)` of `evaluateLadder`. -/
def sortByRow (l : List Branch) : List Branch :=
  l.insertionSort (fun a b => a.row ≤ b.row)

/-- `evaluateLadder()` of `LadderSimulator`: branches top to bottom. -/
def evaluateLadder3 (L : Ladder3) (s : St3) : St3 :=
  (sortByRow L.branches).foldl (evaluateBranch3 L) s

/-- `executeScan()` of `LadderSimulator`: clear the scratch maps, clear the
declared output pins, evaluate the ladder. -/
def executeScan3 (L : Ladder3) (s : St3) : St3 :=
  let pins := L.outputAddrs.foldl (fun p a => upd p a false) s.pins
  evaluateLadder3 L { pins := pins, wires := fun _ => false, comps := fun _ => false }

end Sim3

/-- Decidable check that in a branch list every branch whose
`parent_branch_id` resolves inside the list appears after (some occurrence
of) its parent. -/
def parentsAfter (l : List Branch) : Bool :=
  l.enum.all (fun p =>
    match p.2.parent_branch_id with
    | none => true
    | some pid =>
      !(l.any (fun q => q.id == pid)) || (l.take p.1).any (fun q => q.id == pid))

/-- The all-false, not-running `LadderSimulation` state (fresh instance with
every pin initialized to `false`). -/
def s0L : LadderSim.SimState :=
  { isRunning := false
    pinStates := fun _ => false
    branchPowerStates := fun _ => false
    componentStates := fun _ => false }

/-- Like `s0L` but with the simulation running. -/
def sRun : LadderSim.SimState :=
  { isRunning := true
    pinStates := fun _ => false
    branchPowerStates := fun _ => false
    componentStates := fun _ => false }

/-- A one-branch diagram whose coil is bound to the input address `I:0/0`. -/
def outToInputLadder : Ladder :=
  { branches := [{ id := 0, row := 0, start_col := 0, end_col := 9,
                   parent_branch_id := none, connection_col := none,
                   components := [{ type := .OUT, address := "I:0/0", col := 1 }] }] }

/-- A one-branch diagram with a latch through an input address:
`NC I:0/0 → OUT I:0/0 → OUT O:0/0`. -/
def feedbackLadder : Ladder :=
  { branches := [{ id := 0, row := 0, start_col := 0, end_col := 9,
                   parent_branch_id := none, connection_col := none,
                   components := [{ type := .NC, address := "I:0/0", col := 1 },
                                  { type := .OUT, address := "I:0/0", col := 2 },
                                  { type := .OUT, address := "O:0/0", col := 3 }] }] }

/-- The series diagram of claim C4: one root branch with two `NO` contacts
and an `OUT` coil. -/
def seriesLadder (A B C : String) (c1 c2 c3 sc ec i r : Nat) : Ladder :=
  { branches := [{ id := i, row := r, start_col := sc, end_col := ec,
                   parent_branch_id := none, connection_col := none,
                   components := [{ type := .NO, address := A, col := c1 },
                                  { type := .NO, address := B, col := c2 },
                                  { type := .OUT, address := C, col := c3 }] }] }

/-- A diagram whose only branch names itself as parent (a direct
`parent_branch_id` cycle). -/
def selfParentLadder : Ladder :=
  { branches := [{ id := 1, row := 1, start_col := 0, end_col := 9,
                   parent_branch_id := some 1, connection_col := some 0,
                   components := [{ type := .OUT, address := "O:0/0", col := 1 }] }] }

/-- A diagram whose only branch names a parent id (99) that does not
exist. -/
def danglingLadder : Ladder :=
  { branches := [{ id := 1, row := 1, start_col := 0, end_col := 9,
                   parent_branch_id := some 99, connection_col := some 0,
                   components := [{ type := .OUT, address := "O:0/0", col := 1 }] }] }

/-- Root branch of the C7 counterexample forest. -/
def bRoot : Branch :=
  { id := 0, row := 0, start_col := 0, end_col := 9,
    parent_branch_id := none, connection_col := none, components := [] }

/-- Child of `bRoot` placed at row 2. -/
def bMid : Branch :=
  { id := 1, row := 2, start_col := 0, end_col := 9,
    parent_branch_id := some 0, connection_col := some 0, components := [] }

/-- Grandchild (child of `bMid`) placed at row 1 — a smaller row than its
parent's. -/
def bLow : Branch :=
  { id := 2, row := 1, start_col := 0, end_col := 9,
    parent_branch_id := some 1, connection_col := some 0, components := [] }

/-- An empty ladder (no branches). -/
def emptyLadder : Ladder := { branches := [] }

/-- Ladder-simulator data for the C1 counterexample: one root branch with a
powered coil on `O:0/0`, an open `NO` contact, and a second (unpowered) coil
on the same address. -/
def cexLadder3 : Sim3.Ladder3 :=
  { branches := [{ id := 0, row := 0, start_col := 0, end_col := 9,
                   parent_branch_id := none, connection_col := none,
                   components := [{ type := .OUT, address := "O:0/0", col := 1 },
                                  { type := .NO, address := "I:0/0", col := 2 },
                                  { type := .OUT, address := "O:0/0", col := 3 }] }]
    outputAddrs := ["O:0/0"] }

/-- The all-false `LadderSimulator` state. -/
def s03 : Sim3.St3 :=
  { pins := fun _ => false, wires := fun _ => false, comps := fun _ => false }

/-- A 1×2 grid for the grid engine: `NO I:0/0` then `OUT O:0/0`. -/
def gW : GridSim.GridCfg :=
  { ROWS := 1
    COLS := 2
    grid := fun r c =>
      if r = 0 ∧ c = 0 then some { type := .NO, address := "I:0/0" }
      else if r = 0 ∧ c = 1 then some { type := .OUT, address := "O:0/0" }
      else none }

/-- Initial pin table for `gW` (both pins initialized `false`). -/
def sW : GridSim.ScanSt :=
  { pins := [("I:0/0", false), ("O:0/0", false)]
    wires := fun _ => false
    comps := fun _ => false }

/-- Grandchild branch with a row larger than its parent's (used to witness
the parent-before-child order when rows increase along parent edges). -/
def bDeep : Branch :=
  { id := 2, row := 3, start_col := 0, end_col := 9,
    parent_branch_id := some 1, connection_col := some 0, components := [] }

/-- The C7 counterexample forest: the grandchild `bLow` has a smaller row
than its parent `bMid`. -/
def c7Forest : List Branch := [bRoot, bMid, bLow]

/-- A well-behaved forest: rows strictly increase along parent edges. -/
def c7GoodForest : List Branch := [bRoot, bMid, bDeep]

namespace LadderSim

theorem evaluateComponent_fst_isRunning (s : SimState) (c : Component) (p : Bool) :
    ((evaluateComponent s c p).1).isRunning = s.isRunning := by
  cases c with
  | mk t a k => cases t <;> cases p <;> rfl

theorem evaluateComponent_fst_bps (s : SimState) (c : Component) (p : Bool) :
    ((evaluateComponent s c p).1).branchPowerStates = s.branchPowerStates := by
  cases c with
  | mk t a k => cases t <;> cases p <;> rfl

theorem evaluateComponent_fst_pins (s : SimState) (c : Component) (p : Bool) (addr : String) :
    ((evaluateComponent s c p).1).pinStates addr =
      if c.type = .OUT ∧ c.address = addr ∧ p = true then true
      else s.pinStates addr := by
  unfold evaluateComponent
  cases htype : c.type <;> cases p <;> simp [upd, htype, eq_comm]

theorem evaluateComponent_snd_false (s : SimState) (c : Component) :
    (evaluateComponent s c false).2.1 = false := by
  unfold evaluateComponent
  cases c.type <;> simp

end LadderSim

namespace LadderSim

theorem evalComponents_fst_isRunning (b : Branch) :
    ∀ (cs : List Component) (s : SimState) (p : Bool),
      ((evalComponents b cs s p).1).isRunning = s.isRunning := by
  intro cs
  induction cs with
  | nil => intro s p; rfl
  | cons c rest ih =>
    intro s p
    simp only [evalComponents]
    rw [ih]
    simp [evaluateComponent_fst_isRunning]

theorem evalComponents_bps_other (b : Branch) (n : Nat) (x : Option Nat) (h : ¬ n = b.id) :
    ∀ (cs : List Component) (s : SimState) (p : Bool),
      ((evalComponents b cs s p).1).branchPowerStates (n, x) = s.branchPowerStates (n, x) := by
  intro cs
  induction cs with
  | nil => intro s p; rfl
  | cons c rest ih =>
    intro s p
    simp only [evalComponents]
    rw [ih]
    simp [evaluateComponent_fst_bps, upd, h]

theorem evalComponents_pins_preserve (b : Branch) (addr : String) :
    ∀ (cs : List Component) (s : SimState) (p : Bool),
      (∀ c ∈ cs, c.type = .OUT → ¬ c.address = addr) →
      ((evalComponents b cs s p).1).pinStates addr = s.pinStates addr := by
  intro cs
  induction cs with
  | nil => intro s p _; rfl
  | cons c rest ih =>
    intro s p h
    simp only [evalComponents]
    rw [ih _ _ (fun c hc => h c (List.mem_cons_of_mem _ hc))]
    show ((evaluateComponent _ c p).1).pinStates addr = s.pinStates addr
    rw [evaluateComponent_fst_pins]
    have hc := h c (List.mem_cons_self c rest)
    split
    case isTrue hcond => exact absurd hcond.2.1 (hc hcond.1)
    case isFalse => rfl

theorem evalComponents_snd_false (b : Branch) :
    ∀ (cs : List Component) (s : SimState),
      (evalComponents b cs s false).2 = false := by
  intro cs
  induction cs with
  | nil => intro s; rfl
  | cons c rest ih =>
    intro s
    simp only [evalComponents]
    rw [evaluateComponent_snd_false]
    exact ih _

theorem evalComponents_bps_false (b : Branch) :
    ∀ (cs : List Component) (s : SimState),
      (∀ x, s.branchPowerStates (b.id, x) = false) →
      ∀ x, ((evalComponents b cs s false).1).branchPowerStates (b.id, x) = false := by
  intro cs
  induction cs with
  | nil => intro s h x; exact h x
  | cons c rest ih =>
    intro s h x
    simp only [evalComponents]
    rw [evaluateComponent_snd_false]
    refine ih _ (fun y => ?_) x
    simp only [upd, evaluateComponent_fst_bps]
    split
    · rfl
    split
    · rfl
    · exact h y

end LadderSim

namespace LadderSim

theorem evalComponents_pins_or (b : Branch) (addr : String) :
    ∀ (cs : List Component) (s : SimState) (p : Bool),
      ((evalComponents b cs s p).1).pinStates addr =
        (s.pinStates addr ||
          ((coilWritesComps b cs s p).filter (fun w => w.1 == addr)).any (fun w => w.2)) := by
  intro cs
  induction cs with
  | nil => intro s p; simp [evalComponents, coilWritesComps]
  | cons c rest ih =>
    intro s p
    simp only [evalComponents, coilWritesComps]
    rw [ih, List.filter_append, List.any_append]
    have hpins : ∀ (s5 : SimState),
        ((evaluateComponent s5 c p).1).pinStates addr =
          (s5.pinStates addr ||
            (((if c.type = .OUT then [(c.address, p)] else []).filter
              (fun w => w.1 == addr)).any (fun w => w.2))) := by
      intro s5
      rw [evaluateComponent_fst_pins]
      by_cases hOUT : c.type = .OUT
      · by_cases haddr : c.address = addr
        · cases p <;> simp [hOUT, haddr]
        · have : (c.address == addr) = false := by
            simp [haddr]
          simp [hOUT, haddr, this]
      · simp [hOUT]
    dsimp only
    rw [hpins]
    dsimp only
    exact Bool.or_assoc _ _ _

theorem evaluateBranch_pins_or (L : Ladder) (s : SimState) (b : Branch) (addr : String) :
    (evaluateBranch L s b).pinStates addr =
      (s.pinStates addr ||
        ((coilWritesBranch L s b).filter (fun w => w.1 == addr)).any (fun w => w.2)) := by
  unfold evaluateBranch coilWritesBranch
  exact evalComponents_pins_or b addr b.components _ _

theorem evalBranches_pins_or (L : Ladder) (addr : String) :
    ∀ (bs : List Branch) (s : SimState),
      (evalBranches L bs s).pinStates addr =
        (s.pinStates addr ||
          ((coilWritesBranches L bs s).filter (fun w => w.1 == addr)).any (fun w => w.2)) := by
  intro bs
  induction bs with
  | nil => intro s; simp [evalBranches, coilWritesBranches]
  | cons b rest ih =>
    intro s
    simp only [evalBranches, coilWritesBranches]
    rw [ih, evaluateBranch_pins_or]
    rw [List.filter_append, List.any_append]
    exact Bool.or_assoc _ _ _

theorem evaluateBranch_pins_preserve (L : Ladder) (s : SimState) (b : Branch) (addr : String)
    (h : ∀ c ∈ b.components, c.type = .OUT → ¬ c.address = addr) :
    (evaluateBranch L s b).pinStates addr = s.pinStates addr := by
  unfold evaluateBranch
  exact evalComponents_pins_preserve b addr b.components _ _ h

theorem evalBranches_pins_preserve (L : Ladder) (addr : String) :
    ∀ (bs : List Branch) (s : SimState),
      (∀ b ∈ bs, ∀ c ∈ b.components, c.type = .OUT → ¬ c.address = addr) →
      (evalBranches L bs s).pinStates addr = s.pinStates addr := by
  intro bs
  induction bs with
  | nil => intro s _; rfl
  | cons b rest ih =>
    intro s h
    simp only [evalBranches]
    rw [ih _ (fun x hx => h x (List.mem_cons_of_mem _ hx))]
    exact evaluateBranch_pins_preserve L s b addr (h b (List.mem_cons_self b rest))

theorem evaluateBranch_isRunning (L : Ladder) (s : SimState) (b : Branch) :
    (evaluateBranch L s b).isRunning = s.isRunning := by
  unfold evaluateBranch
  exact evalComponents_fst_isRunning b b.components _ _

theorem evalBranches_isRunning (L : Ladder) :
    ∀ (bs : List Branch) (s : SimState),
      (evalBranches L bs s).isRunning = s.isRunning := by
  intro bs
  induction bs with
  | nil => intro s; rfl
  | cons b rest ih =>
    intro s
    simp only [evalBranches]
    rw [ih, evaluateBranch_isRunning]

theorem evaluateBranch_bps_other (L : Ladder) (s : SimState) (b : Branch) (n : Nat)
    (x : Option Nat) (h : ¬ n = b.id) :
    (evaluateBranch L s b).branchPowerStates (n, x) = s.branchPowerStates (n, x) := by
  unfold evaluateBranch
  show upd _ (b.id, some b.end_col) _ (n, x) = _
  simp only [upd]
  rw [if_neg (by simp [h])]
  rw [evalComponents_bps_other b n x h]
  simp only [upd]
  rw [if_neg (by simp [h])]

theorem evalBranches_bps_other (L : Ladder) (n : Nat) (x : Option Nat) :
    ∀ (bs : List Branch) (s : SimState),
      (∀ b ∈ bs, ¬ b.id = n) →
      (evalBranches L bs s).branchPowerStates (n, x) = s.branchPowerStates (n, x) := by
  intro bs
  induction bs with
  | nil => intro s _; rfl
  | cons b rest ih =>
    intro s h
    simp only [evalBranches]
    rw [ih _ (fun y hy => h y (List.mem_cons_of_mem _ hy))]
    exact evaluateBranch_bps_other L s b n x
      (fun hn => h b (List.mem_cons_self b rest) (hn ▸ rfl))

theorem evaluateBranch_bps_false (L : Ladder) (s : SimState) (b : Branch)
    (hP : incomingPower L s b = false)
    (hinv : ∀ x, s.branchPowerStates (b.id, x) = false) :
    ∀ x, (evaluateBranch L s b).branchPowerStates (b.id, x) = false := by
  intro x
  unfold evaluateBranch
  rw [hP]
  show upd _ (b.id, some b.end_col) _ (b.id, x) = false
  rw [evalComponents_snd_false]
  simp only [upd]
  split
  · rfl
  · refine evalComponents_bps_false b b.components _ (fun y => ?_) x
    simp only [upd]
    split
    · rfl
    · exact hinv y

theorem evalBranches_append (L : Ladder) :
    ∀ (l1 l2 : List Branch) (s : SimState),
      evalBranches L (l1 ++ l2) s = evalBranches L l2 (evalBranches L l1 s) := by
  intro l1
  induction l1 with
  | nil => intro l2 s; rfl
  | cons b rest ih =>
    intro l2 s
    simp only [List.cons_append, evalBranches]
    exact ih l2 _

end LadderSim

namespace LadderSim

theorem scan_unpowered (L : Ladder) (s : SimState) (b : Branch)
    (hb : b ∈ L.branches)
    (hnd : (L.branches.map Branch.id).Nodup)
    (hP : ∀ s1 : SimState,
      (∀ x, s1.branchPowerStates (b.id, x) = false) → incomingPower L s1 b = false) :
    ∀ x, (executeScan L s).branchPowerStates (b.id, x) = false := by
  have hperm : (sortBranches L.branches).Perm L.branches :=
    List.perm_insertionSort branchLe L.branches
  have hbS : b ∈ sortBranches L.branches := hperm.mem_iff.mpr hb
  obtain ⟨l1, l2, hsplit⟩ := List.append_of_mem hbS
  have hndS : ((sortBranches L.branches).map Branch.id).Nodup :=
    (hperm.map Branch.id).nodup_iff.mpr hnd
  rw [hsplit, List.map_append, List.map_cons] at hndS
  have hdisj := (List.nodup_append.mp hndS).2.2
  have hcons := List.nodup_cons.mp ((List.nodup_append.mp hndS).2.1)
  have h1 : ∀ p ∈ l1, ¬ p.id = b.id := by
    intro p hp heq
    exact (hdisj (List.mem_map_of_mem Branch.id hp)) (by simp [heq])
  have h2 : ∀ p ∈ l2, ¬ p.id = b.id := by
    intro p hp heq
    exact hcons.1 (heq ▸ List.mem_map_of_mem Branch.id hp)
  intro x
  unfold executeScan
  rw [hsplit, evalBranches_append]
  have hs1 : ∀ y, (evalBranches L l1 (preScan s)).branchPowerStates (b.id, y) = false := by
    intro y
    rw [evalBranches_bps_other L b.id y l1 (preScan s) h1]
    rfl
  show (evalBranches L (b :: l2) (evalBranches L l1 (preScan s))).branchPowerStates (b.id, x) = false
  simp only [evalBranches]
  rw [evalBranches_bps_other L b.id x l2 _ h2]
  exact evaluateBranch_bps_false L _ b (hP _ hs1) hs1 x

/-- A set of branches none of whose parent chains can reach a root — every
member is non-root and, whenever its parent id resolves to a branch of the
diagram, that branch is again a member (the coinductive reading of "the
`parent_branch_id` chain does not reach a root": it covers a self-parent, a
cycle of branches, and any chain leading into one) — is evaluated entirely
without power: all its members' recorded power states stay `false`. -/
theorem evalBranches_trap (L : Ladder) (P : Branch → Prop)
    (hnd : (L.branches.map Branch.id).Nodup)
    (htrap : ∀ bP ∈ L.branches, P bP → ∃ pid, bP.parent_branch_id = some pid ∧
      ∀ p ∈ L.branches, p.id = pid → P p) :
    ∀ (bs : List Branch) (s : SimState),
      (∀ b2 ∈ bs, b2 ∈ L.branches) →
      (∀ bP ∈ L.branches, P bP → ∀ x, s.branchPowerStates (bP.id, x) = false) →
      ∀ bP ∈ L.branches, P bP → ∀ x,
        (evalBranches L bs s).branchPowerStates (bP.id, x) = false := by
  intro bs
  induction bs with
  | nil => intro s _ hInv bP hbP hPbP x; exact hInv bP hbP hPbP x
  | cons b2 rest ih =>
    intro s hmem hInv bP hbP hPbP x
    simp only [evalBranches]
    have hb2L : b2 ∈ L.branches := hmem b2 (List.mem_cons_self b2 rest)
    have hInv2 : ∀ bQ ∈ L.branches, P bQ → ∀ y,
        (evaluateBranch L s b2).branchPowerStates (bQ.id, y) = false := by
      intro bQ hbQ hPbQ y
      by_cases hPb2 : P b2
      · have hpow : incomingPower L s b2 = false := by
          obtain ⟨pid, hpid, hclosed⟩ := htrap b2 hb2L hPb2
          unfold incomingPower
          rw [hpid]
          show (match findBranchById L pid with
            | some parentBranch => s.branchPowerStates (parentBranch.id, b2.connection_col)
            | none => false) = false
          cases hfind : findBranchById L pid with
          | none => rfl
          | some p1 =>
            have hp1L : p1 ∈ L.branches := by
              unfold findBranchById at hfind
              exact List.mem_of_find?_eq_some hfind
            have hp1id : p1.id = pid := by
              unfold findBranchById at hfind
              have := List.find?_some hfind
              simpa using this
            show s.branchPowerStates (p1.id, b2.connection_col) = false
            exact hInv p1 hp1L (hclosed p1 hp1L hp1id) _
        by_cases heq : bQ = b2
        · subst heq
          exact evaluateBranch_bps_false L s bQ hpow (hInv bQ hbQ hPbQ) y
        · have hid : ¬ bQ.id = b2.id := fun hcon =>
            heq (List.inj_on_of_nodup_map hnd hbQ hb2L hcon)
          rw [evaluateBranch_bps_other L s b2 bQ.id y hid]
          exact hInv bQ hbQ hPbQ y
      · have heq : ¬ bQ = b2 := fun hcon => hPb2 (hcon ▸ hPbQ)
        have hid : ¬ bQ.id = b2.id := fun hcon =>
          heq (List.inj_on_of_nodup_map hnd hbQ hb2L hcon)
        rw [evaluateBranch_bps_other L s b2 bQ.id y hid]
        exact hInv bQ hbQ hPbQ y
    exact ih _ (fun b3 hb3 => hmem b3 (List.mem_cons_of_mem _ hb3)) hInv2 bP hbP hPbP x

theorem preScan_executeScan (L : Ladder) (s : SimState)
    (hout : ∀ b ∈ L.branches, ∀ c ∈ b.components,
      c.type = .OUT → strStartsWith c.address "O:" = true) :
    preScan (executeScan L s) = preScan s := by
  have houtS : ∀ b ∈ sortBranches L.branches, ∀ c ∈ b.components,
      c.type = .OUT → strStartsWith c.address "O:" = true := by
    intro b hb
    exact hout b ((List.perm_insertionSort branchLe L.branches).mem_iff.mp hb)
  have hrun : (executeScan L s).isRunning = s.isRunning := by
    unfold executeScan
    rw [evalBranches_isRunning]
    rfl
  unfold preScan
  rw [hrun]
  have hpins : (fun a => if strStartsWith a "O:" then false else (executeScan L s).pinStates a)
      = fun a => if strStartsWith a "O:" then false else s.pinStates a := by
    funext a
    by_cases ha : strStartsWith a "O:" = true
    · rw [if_pos ha, if_pos ha]
    · rw [if_neg ha, if_neg ha]
      unfold executeScan
      rw [evalBranches_pins_preserve L a (sortBranches L.branches) (preScan s)
        (fun b hb c hc hOUT heq => ha (heq ▸ houtS b hb c hc hOUT))]
      show (if strStartsWith a "O:" then false else s.pinStates a) = s.pinStates a
      rw [if_neg ha]
  rw [hpins]

end LadderSim

namespace LadderSim

/-- Root rank used to restate the comparator: roots rank 0, children rank 1. -/
def rootRank (b : Branch) : Nat :=
  if b.parent_branch_id = none then 0 else 1

theorem branchLe_iff (a b : Branch) :
    branchLe a b ↔
      (rootRank a < rootRank b ∨ (rootRank a = rootRank b ∧ a.row ≤ b.row)) := by
  unfold branchLe branchCompare rootRank
  by_cases ha : a.parent_branch_id = none <;>
    by_cases hb : b.parent_branch_id = none <;>
      simp [ha, hb]

instance : IsTotal Branch branchLe := by
  constructor
  intro a b
  rw [branchLe_iff, branchLe_iff]
  rcases Nat.lt_trichotomy (rootRank a) (rootRank b) with h | h | h
  · exact Or.inl (Or.inl h)
  · rcases Nat.le_total a.row b.row with hr | hr
    · exact Or.inl (Or.inr ⟨h, hr⟩)
    · exact Or.inr (Or.inr ⟨h.symm, hr⟩)
  · exact Or.inr (Or.inl h)

instance : IsTrans Branch branchLe := by
  constructor
  intro a b c hab hbc
  rw [branchLe_iff] at hab hbc ⊢
  rcases hab with h1 | ⟨h1, h1r⟩ <;> rcases hbc with h2 | ⟨h2, h2r⟩
  · exact Or.inl (h1.trans h2)
  · exact Or.inl (h2 ▸ h1)
  · exact Or.inl (h1 ▸ h2)
  · exact Or.inr ⟨h1.trans h2, h1r.trans h2r⟩

theorem not_branchLe_of_parent (b p : Branch)
    (hb : ¬ b.parent_branch_id = none)
    (hcase : p.parent_branch_id = none ∨ p.row < b.row) :
    ¬ branchLe b p := by
  rw [branchLe_iff]
  rcases hcase with hroot | hrow
  · intro h
    have hrb : rootRank b = 1 := by unfold rootRank; rw [if_neg hb]
    have hrp : rootRank p = 0 := by unfold rootRank; rw [if_pos hroot]
    rcases h with h | ⟨h, _⟩ <;> omega
  · intro h
    rcases h with h | ⟨h, hr⟩
    · unfold rootRank at h
      by_cases hp : p.parent_branch_id = none <;> simp [hb, hp] at h
    · omega

end LadderSim

namespace GridSim

theorem scanLoop_spec (g : GridCfg) :
    ∀ (fuel : Nat) (s : ScanSt), 1 ≤ fuel →
      1 ≤ (scanLoop g fuel s).2 ∧
      (scanLoop g fuel s).2 ≤ fuel ∧
      (scanLoop g fuel s).1 = (scanIteration g)^[(scanLoop g fuel s).2] s ∧
      ((scanLoop g fuel s).2 < fuel →
        outputsChanged ((scanIteration g)^[(scanLoop g fuel s).2] s).pins
          (savedOutputs ((scanIteration g)^[(scanLoop g fuel s).2 - 1] s).pins) = false) ∧
      (∀ m, m + 1 < (scanLoop g fuel s).2 →
        outputsChanged ((scanIteration g)^[m + 1] s).pins
          (savedOutputs ((scanIteration g)^[m] s).pins) = true) := by
  intro fuel
  induction fuel with
  | zero => intro s h; omega
  | succ f ih =>
    intro s _
    show 1 ≤ (scanLoop g (f + 1) s).2 ∧ _
    simp only [scanLoop]
    by_cases hch : outputsChanged (scanIteration g s).pins (savedOutputs s.pins) = true
    · rw [if_pos hch]
      rcases Nat.eq_zero_or_pos f with hf | hf
      · subst hf
        simp only [scanLoop]
        refine ⟨le_refl 1, le_refl 1, ?_, ?_, ?_⟩
        · rw [Function.iterate_one]
        · intro h; omega
        · intro m hm; omega
      · obtain ⟨ih1, ih2, ih3, ih4, ih5⟩ := ih (scanIteration g s) hf
        refine ⟨by omega, by omega, ?_, ?_, ?_⟩
        · rw [Function.iterate_succ_apply]
          exact ih3
        · intro hlt
          rw [Function.iterate_succ_apply]
          have hm1 : (scanLoop g f (scanIteration g s)).2 + 1 - 1
              = ((scanLoop g f (scanIteration g s)).2 - 1) + 1 := by omega
          rw [hm1, Function.iterate_succ_apply]
          exact ih4 (by omega)
        · intro m hm
          cases m with
          | zero =>
            rw [Function.iterate_one, Function.iterate_zero_apply]
            exact hch
          | succ k =>
            rw [Function.iterate_succ_apply, Function.iterate_succ_apply]
            exact ih5 k (by omega)
    · rw [if_neg hch]
      refine ⟨le_refl 1, by omega, ?_, ?_, ?_⟩
      · rw [Function.iterate_one]
      · intro _
        rw [Function.iterate_one, Nat.sub_self, Function.iterate_zero_apply]
        exact Bool.not_eq_true _ ▸ (Bool.of_not_eq_true hch)
      · intro m hm; omega

end GridSim

/-- C9 (counterexample): contrary to the claim, a component with empty
address does NOT always pass `powerBefore` through: an `NO` contact with
empty address and `powerBefore = true` yields `powerAfter = false` in
`LadderSimulation.evaluateComponent` (the empty address reads the pin table
default `false`), so it blocks downstream power. -/
theorem c9_counterexample :
    ¬ ((LadderSim.evaluateComponent s0L { type := .NO, address := "", col := 1 } true).2.1
        = true) := by
  decide

/-- C9 (amended): in `LadderSimulation.evaluateComponent`, with the pin table
reading `false` at the empty address (its default for a never-assigned pin),
an empty-address component never throws and behaves by its type: an unknown
type passes power unchanged with `isActive = false`; an empty-address `NO`
blocks power (`powerAfter = false`, `isActive = false`); an empty-address
`NC` passes power with `isActive = true`; an empty-address `OUT` passes
power, is active iff powered, and writes the empty-address entry when
powered. -/
theorem c9_theorem (s : LadderSim.SimState) (p : Bool) (col : Nat)
    (hs : s.pinStates "" = false) :
    LadderSim.evaluateComponent s { type := .UNK, address := "", col := col } p
        = (s, p, false) ∧
    LadderSim.evaluateComponent s { type := .NO, address := "", col := col } p
        = (s, false, false) ∧
    LadderSim.evaluateComponent s { type := .NC, address := "", col := col } p
        = (s, p, true) ∧
    (LadderSim.evaluateComponent s { type := .OUT, address := "", col := col } p).2.1 = p ∧
    (LadderSim.evaluateComponent s { type := .OUT, address := "", col := col } p).2.2 = p ∧
    ((LadderSim.evaluateComponent s { type := .OUT, address := "", col := col } p).1).pinStates ""
        = p := by
  refine ⟨?_, ?_, ?_, ?_, ?_, ?_⟩
  · rfl
  · unfold LadderSim.evaluateComponent LadderSim.getPinState
    simp [hs]
  · unfold LadderSim.evaluateComponent LadderSim.getPinState
    simp [hs]
  · rfl
  · rfl
  · rw [LadderSim.evaluateComponent_fst_pins]
    cases p <;> simp [hs]

/-- C9 (witness): the amended claim at the all-false state with
`powerBefore = true` and `col = 1`. -/
theorem c9_witness :
    s0L.pinStates "" = false ∧
    (LadderSim.evaluateComponent s0L { type := .UNK, address := "", col := 1 } true
        = (s0L, true, false) ∧
      LadderSim.evaluateComponent s0L { type := .NO, address := "", col := 1 } true
        = (s0L, false, false) ∧
      LadderSim.evaluateComponent s0L { type := .NC, address := "", col := 1 } true
        = (s0L, true, true) ∧
      (LadderSim.evaluateComponent s0L { type := .OUT, address := "", col := 1 } true).2.1 = true ∧
      (LadderSim.evaluateComponent s0L { type := .OUT, address := "", col := 1 } true).2.2 = true ∧
      ((LadderSim.evaluateComponent s0L { type := .OUT, address := "", col := 1 } true).1).pinStates ""
        = true) :=
  ⟨rfl, c9_theorem s0L true 1 rfl⟩

/-- C10 (counterexample): contrary to the claim, when the simulation is
running, `toggleInput` on an `"O:"` address does not return the toggled
value: on the empty diagram with all pins `false`, toggling `O:0/0` flips it
to `true`, but the immediate `executeScan` clears it, and `false` is
returned. -/
theorem c10_counterexample :
    ¬ ((LadderSim.toggleInput emptyLadder sRun "O:0/0").1
        = !sRun.pinStates "O:0/0") := by
  decide

/-- C10 (amended): when the simulation is not running (`isRunning = false`,
so no scan is triggered), `toggleInput` behaves as claimed: an address with
neither prefix returns `false` and leaves the state untouched; an `"O:"`
address is toggled exactly like an input pin, the new value is returned, and
only that pin's entry changes. When running, the immediate scan recomputes
the outputs before the return value is read. -/
theorem c10_theorem (L : Ladder) (s : LadderSim.SimState) (address : String)
    (hrun : s.isRunning = false) :
    (strStartsWith address "I:" = false → strStartsWith address "O:" = false →
      LadderSim.toggleInput L s address = (false, s)) ∧
    (strStartsWith address "O:" = true →
      (LadderSim.toggleInput L s address).1 = !s.pinStates address ∧
      (LadderSim.toggleInput L s address).2
        = { s with pinStates := upd s.pinStates address (!s.pinStates address) } ∧
      ∀ a, ¬ a = address →
        ((LadderSim.toggleInput L s address).2).pinStates a = s.pinStates a) := by
  constructor
  · intro hI hO
    unfold LadderSim.toggleInput
    rw [hI, hO]
    rfl
  · intro hO
    unfold LadderSim.toggleInput
    rw [hO]
    have hcond : (strStartsWith address "I:" || true) = true := by
      simp
    rw [hcond]
    simp only [if_pos rfl, hrun, if_neg Bool.false_ne_true]
    refine ⟨?_, rfl, ?_⟩
    · show upd s.pinStates address (!s.pinStates address) address = _
      unfold upd
      rw [if_pos rfl]
    · intro a ha
      show upd s.pinStates address (!s.pinStates address) a = s.pinStates a
      unfold upd
      rw [if_neg ha]

/-- C10 (witness): the amended claim at the empty diagram, the all-false
non-running state, and address `O:0/0`. -/
theorem c10_witness :
    s0L.isRunning = false ∧
    ((strStartsWith "O:0/0" "I:" = false → strStartsWith "O:0/0" "O:" = false →
        LadderSim.toggleInput emptyLadder s0L "O:0/0" = (false, s0L)) ∧
      (strStartsWith "O:0/0" "O:" = true →
        (LadderSim.toggleInput emptyLadder s0L "O:0/0").1 = !s0L.pinStates "O:0/0" ∧
        (LadderSim.toggleInput emptyLadder s0L "O:0/0").2
          = { s0L with pinStates := upd s0L.pinStates "O:0/0" (!s0L.pinStates "O:0/0") } ∧
        ∀ a, ¬ a = "O:0/0" →
          ((LadderSim.toggleInput emptyLadder s0L "O:0/0").2).pinStates a
            = s0L.pinStates a)) :=
  ⟨rfl, c10_theorem emptyLadder s0L "O:0/0" rfl⟩

/-- C3 (counterexample): contrary to the claim, `LadderSimulation`'s `OUT`
case writes its bound pin without any prefix check: scanning a diagram whose
coil is bound to the input address `I:0/0` sets that input pin `true`, so an
input pin does not keep its value across `scan()`. -/
theorem c3_counterexample :
    (LadderSim.executeScan outToInputLadder s0L).pinStates "I:0/0" = true ∧
    s0L.pinStates "I:0/0" = false := by
  constructor
  · decide
  · rfl

/-- C3 (amended): `LadderSimulation.evaluateComponent` writes a pin with no
prefix check (unlike the grid engine's `evaluateCell`, which requires the
`"O:"` prefix), so the engine preserves a non-output pin across
`executeScan` whenever no `OUT` component is bound to that address; in
particular every `"I:"` pin is preserved when every coil is bound to a
different address (as the editor guarantees, coils accepting only output
pins). -/
theorem c3_theorem (L : Ladder) (s : LadderSim.SimState) (addr : String)
    (h1 : strStartsWith addr "O:" = false)
    (h2 : ∀ b ∈ L.branches, ∀ c ∈ b.components, c.type = .OUT → ¬ c.address = addr) :
    (LadderSim.executeScan L s).pinStates addr = s.pinStates addr := by
  unfold LadderSim.executeScan
  rw [LadderSim.evalBranches_pins_preserve L addr (LadderSim.sortBranches L.branches)
    (LadderSim.preScan s) (fun b hb =>
      h2 b ((List.perm_insertionSort LadderSim.branchLe L.branches).mem_iff.mp hb))]
  show (if strStartsWith addr "O:" then false else s.pinStates addr) = s.pinStates addr
  simp [h1]

/-- C3 (witness): the amended claim at the series diagram (whose only coil
is on `O:0/0`) and address `I:0/0`. -/
theorem c3_witness :
    strStartsWith "I:0/0" "O:" = false ∧
    (∀ b ∈ (seriesLadder "I:0/0" "I:0/1" "O:0/0" 1 2 3 0 9 0 0).branches,
      ∀ c ∈ b.components, c.type = .OUT → ¬ c.address = "I:0/0") ∧
    (LadderSim.executeScan (seriesLadder "I:0/0" "I:0/1" "O:0/0" 1 2 3 0 9 0 0) s0L).pinStates "I:0/0"
      = s0L.pinStates "I:0/0" :=
  ⟨by decide, by decide,
    c3_theorem (seriesLadder "I:0/0" "I:0/1" "O:0/0" 1 2 3 0 9 0 0) s0L "I:0/0"
      (by decide) (by decide)⟩

/-- C4 (confirmed): for a single root branch `NO A → NO B → OUT C` (any
columns, id and row), with `A`, `B` not output-prefixed and `C`
output-prefixed, one `executeScan` leaves pin `C` equal to
`A AND B` as read at scan start. -/
theorem c4_theorem (A B C : String) (c1 c2 c3 sc ec i r : Nat) (s : LadderSim.SimState)
    (hA : strStartsWith A "O:" = false) (hB : strStartsWith B "O:" = false)
    (hC : strStartsWith C "O:" = true) :
    LadderSim.getPinState
        (LadderSim.executeScan (seriesLadder A B C c1 c2 c3 sc ec i r) s) C
      = (s.pinStates A && s.pinStates B) := by
  simp only [LadderSim.executeScan, seriesLadder, LadderSim.sortBranches,
    List.insertionSort, List.orderedInsert, LadderSim.evalBranches,
    LadderSim.evaluateBranch, LadderSim.incomingPower, LadderSim.evalComponents,
    LadderSim.evaluateComponent, LadderSim.getPinState, LadderSim.preScan]
  simp only [hA, hB, Bool.false_eq_true, if_false, Bool.true_and]
  cases hab : (s.pinStates A && s.pinStates B) with
  | false =>
    rw [Bool.and_eq_false_iff] at hab
    rcases hab with ha | hb
    · simp [ha, hC, upd]
    · simp [hb, hC, upd]
  | true =>
    rw [Bool.and_eq_true] at hab
    simp [hab.1, hab.2, upd]

/-- C4 (witness): the series diagram on `I:0/0`, `I:0/1`, `O:0/0` with both
inputs `true` at scan start. -/
theorem c4_witness :
    strStartsWith "I:0/0" "O:" = false ∧ strStartsWith "I:0/1" "O:" = false ∧
    strStartsWith "O:0/0" "O:" = true ∧
    LadderSim.getPinState
        (LadderSim.executeScan (seriesLadder "I:0/0" "I:0/1" "O:0/0" 1 2 3 0 9 0 0)
          { s0L with pinStates := upd (upd s0L.pinStates "I:0/0" true) "I:0/1" true })
        "O:0/0"
      = ({ s0L with pinStates := upd (upd s0L.pinStates "I:0/0" true) "I:0/1" true }.pinStates "I:0/0"
          && { s0L with pinStates := upd (upd s0L.pinStates "I:0/0" true) "I:0/1" true }.pinStates "I:0/1") :=
  ⟨by decide, by decide, by decide,
    c4_theorem "I:0/0" "I:0/1" "O:0/0" 1 2 3 0 9 0 0
      { s0L with pinStates := upd (upd s0L.pinStates "I:0/0" true) "I:0/1" true }
      (by decide) (by decide) (by decide)⟩

/-- C5 (counterexample): contrary to the claim, a second `executeScan` with
no external input change can yield different results: on the diagram
`NC I:0/0 → OUT I:0/0 → OUT O:0/0` the first scan writes the input pin
`I:0/0` (no prefix check), so the second scan finds the `NC` contact open
and reports `O:0/0` as `false` where the first scan reported `true`. -/
theorem c5_counterexample :
    ¬ (LadderSim.getPinState
          (LadderSim.executeScan feedbackLadder (LadderSim.executeScan feedbackLadder s0L))
          "O:0/0"
        = LadderSim.getPinState (LadderSim.executeScan feedbackLadder s0L) "O:0/0") := by
  decide

/-- C5 (amended): for every diagram in which every `OUT` component's address
carries the `"O:"` prefix (so a scan writes only output pins), a second
`executeScan` with no input change yields identical `getPinState`,
`isWireEnergized` and `isComponentActive` results, for every address and
every row/column: the scan is idempotent on the observable state. -/
theorem c5_theorem (L : Ladder) (s : LadderSim.SimState)
    (hout : ∀ b ∈ L.branches, ∀ c ∈ b.components,
      c.type = .OUT → strStartsWith c.address "O:" = true) :
    ∀ (addr : String) (row col : Nat),
      LadderSim.getPinState (LadderSim.executeScan L (LadderSim.executeScan L s)) addr
        = LadderSim.getPinState (LadderSim.executeScan L s) addr ∧
      LadderSim.isWireEnergized L (LadderSim.executeScan L (LadderSim.executeScan L s)) row col
        = LadderSim.isWireEnergized L (LadderSim.executeScan L s) row col ∧
      LadderSim.isComponentActive (LadderSim.executeScan L (LadderSim.executeScan L s)) row col
        = LadderSim.isComponentActive (LadderSim.executeScan L s) row col := by
  have hstate : LadderSim.executeScan L (LadderSim.executeScan L s)
      = LadderSim.executeScan L s := by
    show LadderSim.evalBranches L (LadderSim.sortBranches L.branches)
        (LadderSim.preScan (LadderSim.executeScan L s)) = _
    rw [LadderSim.preScan_executeScan L s hout]
    rfl
  intro addr row col
  exact ⟨by rw [hstate], by rw [hstate], by rw [hstate]⟩

/-- C5 (witness): the amended claim at the series diagram (all coils on
output addresses), evaluated at `O:0/0` and position `(0, 0)`. -/
theorem c5_witness :
    (∀ b ∈ (seriesLadder "I:0/0" "I:0/1" "O:0/0" 1 2 3 0 9 0 0).branches,
      ∀ c ∈ b.components, c.type = .OUT → strStartsWith c.address "O:" = true) ∧
    (LadderSim.getPinState
        (LadderSim.executeScan (seriesLadder "I:0/0" "I:0/1" "O:0/0" 1 2 3 0 9 0 0)
          (LadderSim.executeScan (seriesLadder "I:0/0" "I:0/1" "O:0/0" 1 2 3 0 9 0 0) s0L))
        "O:0/0"
      = LadderSim.getPinState
          (LadderSim.executeScan (seriesLadder "I:0/0" "I:0/1" "O:0/0" 1 2 3 0 9 0 0) s0L)
          "O:0/0" ∧
      LadderSim.isWireEnergized (seriesLadder "I:0/0" "I:0/1" "O:0/0" 1 2 3 0 9 0 0)
          (LadderSim.executeScan (seriesLadder "I:0/0" "I:0/1" "O:0/0" 1 2 3 0 9 0 0)
            (LadderSim.executeScan (seriesLadder "I:0/0" "I:0/1" "O:0/0" 1 2 3 0 9 0 0) s0L))
          0 0
        = LadderSim.isWireEnergized (seriesLadder "I:0/0" "I:0/1" "O:0/0" 1 2 3 0 9 0 0)
            (LadderSim.executeScan (seriesLadder "I:0/0" "I:0/1" "O:0/0" 1 2 3 0 9 0 0) s0L)
            0 0 ∧
      LadderSim.isComponentActive
          (LadderSim.executeScan (seriesLadder "I:0/0" "I:0/1" "O:0/0" 1 2 3 0 9 0 0)
            (LadderSim.executeScan (seriesLadder "I:0/0" "I:0/1" "O:0/0" 1 2 3 0 9 0 0) s0L))
          0 0
        = LadderSim.isComponentActive
            (LadderSim.executeScan (seriesLadder "I:0/0" "I:0/1" "O:0/0" 1 2 3 0 9 0 0) s0L)
            0 0) :=
  ⟨by decide,
    c5_theorem (seriesLadder "I:0/0" "I:0/1" "O:0/0" 1 2 3 0 9 0 0) s0L (by decide)
      "O:0/0" 0 0⟩

/-- C1 (counterexample): contrary to the claim, in `LadderSimulator`
(ladder-simulator.js) a later coil evaluation with no incoming power writes
`false`: on the branch `OUT O:0/0 → NO I:0/0 (open) → OUT O:0/0`, the first
coil is powered (it is marked active), yet the final value of `O:0/0` is
`false`, not the OR (`true`) of the powers reaching the two coils. -/
theorem c1_counterexample :
    (Sim3.executeScan3 cexLadder3 s03).comps (0, 1) = true ∧
    (Sim3.executeScan3 cexLadder3 s03).pins "O:0/0" = false := by
  constructor
  · decide
  · decide

/-- C1 (amended): the OR-across-writers property holds for
`LadderSimulation` (simulation-new.js): after `executeScan`, an
`"O:"`-prefixed pin equals the OR of the `powerBefore` values of the coil
evaluations bound to it during the pass (`coilWritesBranches` is the exact
trace of those evaluations), and no coil evaluation ever resets a pin that
is already `true`. In `LadderSimulator` (ladder-simulator.js) an unpowered
coil instead writes `false`, so there the final value is
last-writer-wins. -/
theorem c1_theorem (L : Ladder) (s : LadderSim.SimState) (addr : String)
    (h : strStartsWith addr "O:" = true) :
    LadderSim.getPinState (LadderSim.executeScan L s) addr
      = ((LadderSim.coilWritesBranches L (LadderSim.sortBranches L.branches)
          (LadderSim.preScan s)).filter (fun w => w.1 == addr)).any (fun w => w.2) ∧
    ∀ (s1 : LadderSim.SimState) (c : Component) (p : Bool),
      s1.pinStates addr = true →
      ((LadderSim.evaluateComponent s1 c p).1).pinStates addr = true := by
  constructor
  · unfold LadderSim.getPinState LadderSim.executeScan
    rw [LadderSim.evalBranches_pins_or L addr (LadderSim.sortBranches L.branches)
      (LadderSim.preScan s)]
    show ((if strStartsWith addr "O:" then false else s.pinStates addr) || _) = _
    rw [if_pos h, Bool.false_or]
  · intro s1 c p hp
    rw [LadderSim.evaluateComponent_fst_pins]
    split
    · rfl
    · exact hp

/-- C1 (witness): the amended OR characterization at the series diagram and
address `O:0/0`. -/
theorem c1_witness :
    strStartsWith "O:0/0" "O:" = true ∧
    LadderSim.getPinState
        (LadderSim.executeScan (seriesLadder "I:0/0" "I:0/1" "O:0/0" 1 2 3 0 9 0 0) s0L)
        "O:0/0"
      = ((LadderSim.coilWritesBranches (seriesLadder "I:0/0" "I:0/1" "O:0/0" 1 2 3 0 9 0 0)
          (LadderSim.sortBranches (seriesLadder "I:0/0" "I:0/1" "O:0/0" 1 2 3 0 9 0 0).branches)
          (LadderSim.preScan s0L)).filter
            (fun w => w.1 == "O:0/0")).any (fun w => w.2) :=
  ⟨by decide,
    (c1_theorem (seriesLadder "I:0/0" "I:0/1" "O:0/0" 1 2 3 0 9 0 0) s0L "O:0/0" (by decide)).1⟩

/-- C6 (counterexample): contrary to the claim, `scan()` does not fail on a
cyclic parent chain — no `CyclicTopologyError` (or any error) exists in the
code: on the diagram whose only branch names itself as parent, `executeScan`
completes normally, evaluating the branch with no incoming power (its start
power is recorded `false`, its coil stays off and inactive). -/
theorem c6_counterexample :
    (LadderSim.executeScan selfParentLadder s0L).branchPowerStates (1, some 0) = false ∧
    (LadderSim.executeScan selfParentLadder s0L).pinStates "O:0/0" = false ∧
    LadderSim.isComponentActive (LadderSim.executeScan selfParentLadder s0L) 1 1 = false := by
  refine ⟨by decide, by decide, by decide⟩

/-- C6 (amended): `scan()` never follows parent chains — each branch
performs exactly one parent lookup — so it always terminates, evaluating
each branch once (the evaluated sequence has exactly the diagram's branch
count); and every branch whose `parent_branch_id` chain cannot reach a root
is evaluated with incoming power `false`, with no error raised: its
recorded power at `start_col` after the scan is `false`. The non-reaching
chains are characterized coinductively by a set `P` of branches, each
non-root with its parent (when its id resolves) again in `P` — covering a
branch whose `parent_branch_id` points to itself directly as well as cycles
of several branches and chains leading into them. -/
theorem c6_theorem (L : Ladder) (s : LadderSim.SimState) (P : Branch → Prop) (b : Branch)
    (hb : b ∈ L.branches) (hP : P b)
    (hnd : (L.branches.map Branch.id).Nodup)
    (htrap : ∀ bP ∈ L.branches, P bP → ∃ pid, bP.parent_branch_id = some pid ∧
      ∀ p ∈ L.branches, p.id = pid → P p) :
    (LadderSim.executeScan L s).branchPowerStates (b.id, some b.start_col) = false ∧
    (LadderSim.sortBranches L.branches).length = L.branches.length := by
  constructor
  · unfold LadderSim.executeScan
    refine LadderSim.evalBranches_trap L P hnd htrap (LadderSim.sortBranches L.branches)
      (LadderSim.preScan s) (fun b2 hb2 => ?_) (fun bP hbP hPbP x => rfl) b hb hP
      (some b.start_col)
    exact (List.perm_insertionSort LadderSim.branchLe L.branches).mem_iff.mp hb2
  · exact (List.perm_insertionSort LadderSim.branchLe L.branches).length_eq

/-- C6 (witness): the amended claim at the self-parent diagram, with the
trap set consisting of the branches with id 1. -/
theorem c6_witness :
    ({ id := 1, row := 1, start_col := 0, end_col := 9,
       parent_branch_id := some 1, connection_col := some 0,
       components := [{ type := .OUT, address := "O:0/0", col := 1 }] } : Branch)
        ∈ selfParentLadder.branches ∧
    (selfParentLadder.branches.map Branch.id).Nodup ∧
    ((LadderSim.executeScan selfParentLadder s0L).branchPowerStates (1, some 0) = false ∧
      (LadderSim.sortBranches selfParentLadder.branches).length
        = selfParentLadder.branches.length) :=
  ⟨by decide, by decide,
    c6_theorem selfParentLadder s0L (fun b2 => b2.id = 1)
      { id := 1, row := 1, start_col := 0, end_col := 9,
        parent_branch_id := some 1, connection_col := some 0,
        components := [{ type := .OUT, address := "O:0/0", col := 1 }] }
      (by decide) rfl (by decide)
      (fun b2 hb2 hP2 =>
        ⟨1, by
            have hb2e : b2
                = ({ id := 1, row := 1, start_col := 0, end_col := 9,
                     parent_branch_id := some 1, connection_col := some 0,
                     components := [{ type := .OUT, address := "O:0/0", col := 1 }] } : Branch) := by
              simpa [selfParentLadder] using hb2
            rw [hb2e],
          fun p hp hpid => hpid⟩)⟩

/-- C8 (counterexample): contrary to the claim, a dangling
`parent_branch_id` does not make evaluation fail — no `DanglingParentError`
(or any error) exists in the code: on the diagram whose only branch names
the nonexistent parent 99, `executeScan` completes normally, treating the
branch as unpowered. -/
theorem c8_counterexample :
    (LadderSim.executeScan danglingLadder s0L).branchPowerStates (1, some 0) = false ∧
    (LadderSim.executeScan danglingLadder s0L).pinStates "O:0/0" = false ∧
    LadderSim.isComponentActive (LadderSim.executeScan danglingLadder s0L) 1 1 = false := by
  refine ⟨by decide, by decide, by decide⟩

/-- C8 (amended): a non-root branch whose `parent_branch_id` resolves to no
existing branch is evaluated with incoming power `false`
(`findBranchById` returns nothing and `evaluateBranch` keeps
`hasPower = false`); the diagram is still evaluated and no error is
surfaced: after the scan the branch's recorded power at `start_col` is
`false`. -/
theorem c8_theorem (L : Ladder) (s : LadderSim.SimState) (b : Branch) (pid : Nat)
    (hb : b ∈ L.branches)
    (hnd : (L.branches.map Branch.id).Nodup)
    (hp : b.parent_branch_id = some pid)
    (hd : ∀ p ∈ L.branches, ¬ p.id = pid) :
    (LadderSim.executeScan L s).branchPowerStates (b.id, some b.start_col) = false := by
  refine LadderSim.scan_unpowered L s b hb hnd ?_ (some b.start_col)
  intro s1 _
  unfold LadderSim.incomingPower
  rw [hp]
  show (match findBranchById L pid with
    | some parentBranch => s1.branchPowerStates (parentBranch.id, b.connection_col)
    | none => false) = false
  have hfind : findBranchById L pid = none := by
    unfold findBranchById
    rw [List.find?_eq_none]
    intro x hx
    simp [hd x hx]
  rw [hfind]

/-- C8 (witness): the amended claim at the dangling-parent diagram. -/
theorem c8_witness :
    ({ id := 1, row := 1, start_col := 0, end_col := 9,
       parent_branch_id := some 99, connection_col := some 0,
       components := [{ type := .OUT, address := "O:0/0", col := 1 }] } : Branch)
        ∈ danglingLadder.branches ∧
    (danglingLadder.branches.map Branch.id).Nodup ∧
    (∀ p ∈ danglingLadder.branches, ¬ p.id = 99) ∧
    (LadderSim.executeScan danglingLadder s0L).branchPowerStates (1, some 0) = false :=
  ⟨by decide, by decide, by decide,
    c8_theorem danglingLadder s0L
      { id := 1, row := 1, start_col := 0, end_col := 9,
        parent_branch_id := some 99, connection_col := some 0,
        components := [{ type := .OUT, address := "O:0/0", col := 1 }] }
      99 (by decide) (by decide) rfl (by decide)⟩

/-- C7 (counterexample): contrary to the claim, the comparator of
`evaluateLadder` only separates roots from non-roots and then sorts by row,
so it is not a topological order: in the forest root(row 0) → child(row 2) →
grandchild(row 1), the grandchild `bLow` is placed before its parent
`bMid`. -/
theorem c7_counterexample :
    LadderSim.sortBranches c7Forest = [bRoot, bLow, bMid] ∧
    bLow.parent_branch_id = some bMid.id ∧
    parentsAfter (LadderSim.sortBranches c7Forest) = false := by
  refine ⟨by decide, by decide, by decide⟩

/-- C7 (amended): the produced order places roots first and non-roots by
ascending row; every branch comes after its parent provided each non-root's
parent is a root or has a strictly smaller row — a grandchild whose row is
smaller than its non-root parent's is evaluated before its parent. -/
theorem c7_theorem (l : List Branch)
    (hrow : ∀ b ∈ l, ∀ p ∈ l, b.parent_branch_id = some p.id →
      p.parent_branch_id = none ∨ p.row < b.row) :
    ∀ (i j : Fin (LadderSim.sortBranches l).length),
      ((LadderSim.sortBranches l).get j).parent_branch_id
        = some (((LadderSim.sortBranches l).get i).id) →
      i < j := by
  intro i j hij
  have hsorted : List.Sorted LadderSim.branchLe (LadderSim.sortBranches l) :=
    List.sorted_insertionSort LadderSim.branchLe l
  have hperm : (LadderSim.sortBranches l).Perm l :=
    List.perm_insertionSort LadderSim.branchLe l
  have hbmem : (LadderSim.sortBranches l).get j ∈ l :=
    hperm.mem_iff.mp (List.get_mem _ _ _)
  have hpmem : (LadderSim.sortBranches l).get i ∈ l :=
    hperm.mem_iff.mp (List.get_mem _ _ _)
  have hcase := hrow _ hbmem _ hpmem hij
  have hnonroot : ¬ ((LadderSim.sortBranches l).get j).parent_branch_id = none := by
    rw [hij]
    simp
  have hnot := LadderSim.not_branchLe_of_parent _ _ hnonroot hcase
  by_contra hcon
  have hji : (j : Nat) ≤ (i : Nat) := Nat.le_of_not_lt (fun hh => hcon hh)
  rcases Nat.eq_or_lt_of_le hji with heq | hlt
  · have hsame : (LadderSim.sortBranches l).get j = (LadderSim.sortBranches l).get i := by
      congr 1
      exact Fin.ext heq
    rw [hsame] at hnonroot
    rcases hcase with hroot | hrowlt
    · exact hnonroot hroot
    · rw [hsame] at hrowlt
      exact Nat.lt_irrefl _ hrowlt
  · exact hnot (List.pairwise_iff_get.mp hsorted j i hlt)

/-- C7 (witness): the amended claim at a forest whose rows strictly increase
along parent edges (root row 0, child row 2, grandchild row 3): the parent
at index 1 precedes its child at index 2 in the sorted order. -/
theorem c7_witness :
    (∀ b ∈ c7GoodForest, ∀ p ∈ c7GoodForest, b.parent_branch_id = some p.id →
      p.parent_branch_id = none ∨ p.row < b.row) ∧
    ((⟨1, by decide⟩ : Fin (LadderSim.sortBranches c7GoodForest).length)
      < (⟨2, by decide⟩ : Fin (LadderSim.sortBranches c7GoodForest).length)) :=
  ⟨by decide,
    c7_theorem c7GoodForest (by decide) ⟨1, by decide⟩ ⟨2, by decide⟩ (by decide)⟩

namespace GridSim

theorem getPin_clearOutputs :
    ∀ (m : PinMap) (a : String), strStartsWith a "O:" = true →
      getPin (clearOutputs m) a = false := by
  intro m a ha
  induction m with
  | nil => rfl
  | cons kv rest ih =>
    unfold clearOutputs at ih ⊢
    unfold getPin lookupPin at ih ⊢
    simp only [List.map_cons]
    by_cases hk : (kv.1 == a) = true
    · have hkeq : kv.1 = a := by
        exact beq_iff_eq.mp hk
      rw [List.find?_cons_of_pos]
      · show ((if strStartsWith kv.1 "O:" then (kv.1, false) else kv).2 : Bool) = false
        rw [hkeq, if_pos ha]
      · show ((if strStartsWith kv.1 "O:" then (kv.1, false) else kv).1 == a) = true
        rw [hkeq, if_pos (hkeq ▸ ha)]
        exact beq_iff_eq.mpr rfl
    · rw [List.find?_cons_of_neg]
      · exact ih
      · show ¬ ((if strStartsWith kv.1 "O:" then (kv.1, false) else kv).1 == a) = true
        by_cases hsw : strStartsWith kv.1 "O:" = true
        · rw [if_pos hsw]
          exact fun hcon => hk hcon
        · rw [if_neg hsw]
          exact fun hcon => hk hcon

end GridSim

/-- C2 (confirmed): `executeScanCycle()` — the scan entry point with the
feedback stabilizer — always performs between 1 and 10 iterations; the
returned state is exactly the iteration function applied that many times
(so hitting the cap is not an error: the last-computed state is returned);
if the cap was not hit, the final iteration changed no output pin relative
to the values saved at its start; every earlier iteration did change some
output (the loop stops as soon as no output differs); and each iteration
starts by clearing every output pin to `false` (`clearOutputs`, applied
inside `scanIteration` before propagation is re-run over the whole grid). -/
theorem c2_theorem (g : GridSim.GridCfg) (s : GridSim.ScanSt) :
    1 ≤ (GridSim.executeScanCycle g s).2 ∧
    (GridSim.executeScanCycle g s).2 ≤ 10 ∧
    (GridSim.executeScanCycle g s).1
      = (GridSim.scanIteration g)^[(GridSim.executeScanCycle g s).2] s ∧
    ((GridSim.executeScanCycle g s).2 < 10 →
      GridSim.outputsChanged
          ((GridSim.scanIteration g)^[(GridSim.executeScanCycle g s).2] s).pins
          (GridSim.savedOutputs
            ((GridSim.scanIteration g)^[(GridSim.executeScanCycle g s).2 - 1] s).pins)
        = false) ∧
    (∀ m, m + 1 < (GridSim.executeScanCycle g s).2 →
      GridSim.outputsChanged ((GridSim.scanIteration g)^[m + 1] s).pins
          (GridSim.savedOutputs ((GridSim.scanIteration g)^[m] s).pins)
        = true) ∧
    (∀ (m : GridSim.PinMap) (a : String), strStartsWith a "O:" = true →
      GridSim.getPin (GridSim.clearOutputs m) a = false) := by
  have h := GridSim.scanLoop_spec g 10 s (by omega)
  exact ⟨h.1, h.2.1, h.2.2.1, h.2.2.2.1, h.2.2.2.2, GridSim.getPin_clearOutputs⟩

/-- C2 (witness): the scan cycle on the 1×2 grid `NO I:0/0 → OUT O:0/0`
terminates within the cap and returns the iterated state. -/
theorem c2_witness :
    (GridSim.executeScanCycle gW sW).2 ≤ 10 ∧
    (GridSim.executeScanCycle gW sW).1
      = (GridSim.scanIteration gW)^[(GridSim.executeScanCycle gW sW).2] sW :=
  ⟨(c2_theorem gW sW).2.1, (c2_theorem gW sW).2.2.1⟩
